import Mathlib

/-
Verification of the markup-it rule-application engine against its design
specification.

The development shallowly embeds `src/models/state.js` (re-exported through
`src/index.js`): the immutable `State` record, its accessor/transformer
methods, the decode loop `lex`, the rule dispatcher `applyRules`, and the
encode loop `_serialize`.

Modelling conventions:
- JS strings under character-level manipulation (`text`, raw-buffer `rest`,
  text-node content) are `List Char`; pure tags (`kind`, node types, marks,
  error messages) are `String`.
- Immutable.js `List` is `List`, `Set` is an insertion-ordered duplicate-free
  `List`, `Map` is an association list with overwrite-on-set.
- A `Rule` holds optional `deserialize`/`serialize` operations of type
  `State → Option State` (the spec's `Rule(state) → result | none` contract).
  Because rules are functions over states, the rule table cannot be stored
  inside the state record itself (a negative occurrence); it is threaded as a
  separate `RuleSet` parameter.  No engine operation in the source ever
  modifies the stored `rulesSet` field, so this is observationally faithful.
- Both recursive engine loops (`lex`, `_serialize`) are fueled: one unit of
  fuel per loop iteration; `none` means the fuel was exhausted.
-/

/-- Slate node abstraction used by the engine: a leaf text node carries its
content and the style marks it was created with; container nodes (`block`,
`inline`) carry a type tag and ordered children. -/
inductive Node where
  | text (content : List Char) (marks : List String)
  | block (type : String) (nodes : List Node)
  | inlineNode (type : String) (nodes : List Node)

mutual

/-- Structural equality test on nodes (Immutable.js value equality). -/
def Node.beq : Node → Node → Bool
  | .text c1 m1, .text c2 m2 => decide (c1 = c2) && decide (m1 = m2)
  | .block t1 ns1, .block t2 ns2 => decide (t1 = t2) && Node.beqList ns1 ns2
  | .inlineNode t1 ns1, .inlineNode t2 ns2 => decide (t1 = t2) && Node.beqList ns1 ns2
  | _, _ => false

/-- Structural equality test on node lists. -/
def Node.beqList : List Node → List Node → Bool
  | [], [] => true
  | a :: as, b :: bs => Node.beq a b && Node.beqList as bs
  | _, _ => false

end

mutual

theorem Node.eq_of_beq : ∀ {a b : Node}, Node.beq a b = true → a = b
  | .text _ _, .text _ _, h =>
      congrArg₂ Node.text (of_decide_eq_true (Bool.and_eq_true_iff.mp h).1)
        (of_decide_eq_true (Bool.and_eq_true_iff.mp h).2)
  | .block _ _, .block _ _, h =>
      congrArg₂ Node.block (of_decide_eq_true (Bool.and_eq_true_iff.mp h).1)
        (Node.eqList_of_beqList (Bool.and_eq_true_iff.mp h).2)
  | .inlineNode _ _, .inlineNode _ _, h =>
      congrArg₂ Node.inlineNode (of_decide_eq_true (Bool.and_eq_true_iff.mp h).1)
        (Node.eqList_of_beqList (Bool.and_eq_true_iff.mp h).2)
  | .text _ _, .block _ _, h => Bool.noConfusion h
  | .text _ _, .inlineNode _ _, h => Bool.noConfusion h
  | .block _ _, .text _ _, h => Bool.noConfusion h
  | .block _ _, .inlineNode _ _, h => Bool.noConfusion h
  | .inlineNode _ _, .text _ _, h => Bool.noConfusion h
  | .inlineNode _ _, .block _ _, h => Bool.noConfusion h

theorem Node.eqList_of_beqList : ∀ {as bs : List Node}, Node.beqList as bs = true → as = bs
  | [], [], _ => rfl
  | _ :: _, _ :: _, h =>
      congrArg₂ List.cons (Node.eq_of_beq (Bool.and_eq_true_iff.mp h).1)
        (Node.eqList_of_beqList (Bool.and_eq_true_iff.mp h).2)
  | [], _ :: _, h => Bool.noConfusion h
  | _ :: _, [], h => Bool.noConfusion h

end

mutual

theorem Node.beq_refl : ∀ a : Node, Node.beq a a = true
  | .text _ _ => Bool.and_eq_true_iff.mpr ⟨decide_eq_true rfl, decide_eq_true rfl⟩
  | .block _ ns => Bool.and_eq_true_iff.mpr ⟨decide_eq_true rfl, Node.beqList_refl ns⟩
  | .inlineNode _ ns =>
      Bool.and_eq_true_iff.mpr ⟨decide_eq_true rfl, Node.beqList_refl ns⟩

theorem Node.beqList_refl : ∀ as : List Node, Node.beqList as as = true
  | [] => rfl
  | a :: as => Bool.and_eq_true_iff.mpr ⟨Node.beq_refl a, Node.beqList_refl as⟩

end

instance Node.instDecidableEq : DecidableEq Node := fun a b =>
  if h : Node.beq a b = true then isTrue (Node.eq_of_beq h)
  else isFalse fun he => h (he ▸ Node.beq_refl a)

/-- The `kind` of a Slate node as read by the serializer's error message. -/
def Node.kind : Node → String
  | .text .. => "text"
  | .block .. => "block"
  | .inlineNode .. => "inline"

/-- The `type` of a Slate node, with `undefined` (text leaves) coerced to the
empty string, mirroring the template interpolation `${node.type || ''}`. -/
def Node.typeOrEmpty : Node → String
  | .text .. => ""
  | .block ty _ => ty
  | .inlineNode ty _ => ty

/-- Modelled from the spec: the "text block" type tag imported from
`constants/blocks` (that constants file is not part of the engine source);
the claims do not depend on the concrete string. -/
def BLOCKS_TEXT : String := "text"

/-- The immutable parser/serializer state record (fields of `DEFAULTS` in
`models/state.js`, minus the externally threaded `rulesSet`). -/
structure State where
  text : List Char
  nodes : List Node
  marks : List String
  kind : String
  depth : Int
  props : List (String × String)
deriving DecidableEq

/-- `State.create()`: the default record (`text: ''`, `nodes: List()`,
`marks: Set()`, `kind: 'block'`, `depth: 0`, `props: Map()`). -/
def State.create : State :=
  { text := [], nodes := [], marks := [], kind := "block", depth := 0, props := [] }

/-- A rule offers an optional decode operation and/or an optional encode
operation (`{deserialize?, serialize?}`). -/
structure Rule where
  deserialize : Option (State → Option State) := none
  serialize : Option (State → Option State) := none

/-- The rule table: kind → ordered rule list (`rulesSet` in the source). -/
abbrev RuleSet := List (String × List Rule)

/-- `rule[kind]` for the two operation names the engine uses. -/
def Rule.getOp (r : Rule) (kind : String) : Option (State → Option State) :=
  if kind = "deserialize" then r.deserialize
  else if kind = "serialize" then r.serialize
  else none

/-- Modelled from the spec: `RuleFunction.exec` (in `models/rule-function`,
not part of the provided source) applies a rule's operation to the state,
yielding a new state or none. -/
def RuleFunction.exec (f : State → Option State) (s : State) : Option State :=
  f s

/-- `get rules()`: `rulesSet.get(kind, List())`. -/
def State.rules (rs : RuleSet) (s : State) : List Rule :=
  (List.lookup s.kind rs).getD []

/-- `use(kind)`. -/
def State.use (s : State) (kind : String) : State := { s with kind := kind }

/-- Immutable `Map.set`: overwrite in place if the key exists, else append. -/
def mapSet (key value : String) : List (String × String) → List (String × String)
  | [] => [(key, value)]
  | (k, v) :: rest =>
      if k = key then (k, value) :: rest else (k, v) :: mapSet key value rest

/-- `setProp(key, value)`. -/
def State.setProp (s : State) (key value : String) : State :=
  { s with props := mapSet key value s.props }

/-- `getProp(key)`. -/
def State.getProp (s : State) (key : String) : Option String :=
  (List.lookup key s.props)

/-- `write(string)`: append to the output text buffer. -/
def State.write (s : State) (string : List Char) : State :=
  { s with text := s.text ++ string }

/-- `replaceText(text)`. -/
def State.replaceText (s : State) (text : List Char) : State :=
  { s with text := text }

/-- `peek()`: first node of the stack. -/
def State.peek (s : State) : Option Node :=
  s.nodes.head?

/-- `shift()`: drop the first node of the stack. -/
def State.shift (s : State) : State :=
  { s with nodes := s.nodes.tail }

/-- `unshift(node)`: prepend a node. -/
def State.unshift (s : State) (node : Node) : State :=
  { s with nodes := node :: s.nodes }

/-- `push(node)` for a single node: append to the stack. -/
def State.push (s : State) (node : Node) : State :=
  { s with nodes := s.nodes ++ [node] }

/-- `push(node)` for a list argument (`List.isList` branch): concatenate. -/
def State.pushList (s : State) (nodeList : List Node) : State :=
  { s with nodes := s.nodes ++ nodeList }

/-- Immutable `Set.add`: append if absent. -/
def setAdd (m : String) (marks : List String) : List String :=
  if m ∈ marks then marks else marks ++ [m]

/-- `pushMark(mark)`. -/
def State.pushMark (s : State) (mark : String) : State :=
  { s with marks := setAdd mark s.marks }

/-- `pushText(text)`: create a leaf from the current marks, wrap it in a
text block when the state kind is `'block'`, and push it. -/
def State.pushText (s : State) (text : List Char) : State :=
  let node := Node.text text s.marks
  let node2 := if s.kind = "block" then Node.block BLOCKS_TEXT [node] else node
  s.push node2

/-- `up()`: `depth--`. -/
def State.up (s : State) : State := { s with depth := s.depth - 1 }

/-- `down()`: `depth++`. -/
def State.down (s : State) : State := { s with depth := s.depth + 1 }

/-- `skip(n)`: `text = text.slice(n)`. -/
def State.skip (s : State) (n : Nat) : State :=
  { s with text := s.text.drop n }

/-- The character class removed by JS `String.prototype.trim`: the
ECMAScript WhiteSpace set (TAB, VT, FF, SP, NBSP, ZWNBSP and every
Space_Separator code point — U+1680, U+2000..U+200A, U+202F, U+205F,
U+3000) together with the LineTerminator set (LF, CR, LS, PS). -/
def jsWhitespace (c : Char) : Bool :=
  c = ' ' || c = '\t' || c = '\n' || c = '\r' || c = '\u000b' || c = '\u000c' ||
    c = '\u00a0' || c = '\u1680' || (0x2000 ≤ c.toNat && c.toNat ≤ 0x200a) ||
    c = '\u2028' || c = '\u2029' || c = '\u202f' || c = '\u205f' ||
    c = '\u3000' || c = '\ufeff'

/-- JS `rest.trim()`: strip leading and trailing whitespace. -/
def jsTrim (l : List Char) : List Char :=
  ((l.dropWhile jsWhitespace).reverse.dropWhile jsWhitespace).reverse

/-- Decode options: `opts.trim` is tri-state (`undefined`/`true`/`false`). -/
structure Opts where
  trim : Option Bool := none
deriving DecidableEq, Repr

/-- The prologue of each `lex` iteration: compute `trimedRest`
(`opts.trim !== false ? rest.trim() : rest`) and flush it as one text node
when non-empty, producing `startState`. -/
def lexStart (opts : Opts) (s : State) (rest : List Char) : State :=
  let trimedRest := if opts.trim ≠ some false then jsTrim rest else rest
  if trimedRest ≠ [] then s.pushText trimedRest else s

/-- The body of the `applyRules` loop: `RuleFunction.exec(rule[kind], state)`
(post-filter the operation is always present; the `none` arm is dead). -/
def tryRule (kind : String) (s : State) (rl : Rule) : Option State :=
  match Rule.getOp rl kind with
  | some f => RuleFunction.exec f s
  | none => none

/-- `applyRules(kind)`: filter to the rules offering the operation, then take
the first non-none application (the `forEach` loop stops at the first truthy
result; with no match the accumulator stays `undefined`). -/
def State.applyRules (rs : RuleSet) (kind : String) (s : State) : Option State :=
  ((State.rules rs s).filter fun rl => (Rule.getOp rl kind).isSome).findSome?
    (tryRule kind s)

/-- The fixed message of the no-progress error thrown by both engine loops. -/
def progressMsg : String :=
  "A rule returns an identical state, returns undefined instead when passing."

/-- `lex(rest, opts)`, fueled (one unit per iteration; `none` = fuel ran
out).  Mirrors the source line by line: flush the raw buffer into
`startState`; return it when `text` is empty; otherwise apply the decode
rules to `startState`; a result equal to the start state raises the
no-progress error; no result moves one character from `text` into `rest`
and retries from the pre-flush `state`; a real result continues with the
same `rest`. -/
def lexF (rs : RuleSet) (opts : Opts) : Nat → State → List Char → Option (Except String State)
  | 0, _, _ => none
  | fuel + 1, s, rest =>
    let startState := lexStart opts s rest
    if s.text = [] then
      some (Except.ok startState)
    else
      match State.applyRules rs "deserialize" startState with
      | some newState =>
          if newState = startState then some (Except.error progressMsg)
          else lexF rs opts fuel newState rest
      | none => lexF rs opts fuel (s.skip 1) (rest ++ s.text.take 1)

/-- The state entering `deserialize`: `this.down().merge({ text, nodes: List() })`. -/
def deserializeEnter (text : List Char) (s : State) : State :=
  { s.down with text := text, nodes := [] }

/-- `deserialize(text)`: `down()`, reset `text`/`nodes`, run `lex()` with the
default (empty) options and empty raw buffer, and extract the node stack. -/
def deserializeF (rs : RuleSet) (fuel : Nat) (text : List Char) (s : State) :
    Option (Except String (List Node)) :=
  (lexF rs {} fuel (deserializeEnter text s) []).map (Except.map State.nodes)

/-- `_serialize()`, fueled: done when the node stack is empty; otherwise the
first matching encode rule produces the next state; no match raises the
totality error naming the front node's kind and type; an unchanged state
raises the no-progress error. -/
def serializeF (rs : RuleSet) : Nat → State → Option (Except String State)
  | 0, _ => none
  | fuel + 1, s =>
    match s.nodes with
    | [] => some (Except.ok s)
    | n :: _ =>
      match State.applyRules rs "serialize" s with
      | none =>
          some (Except.error
            ("No rule match node " ++ n.kind ++ "#" ++ n.typeOrEmpty))
      | some st =>
          if st = s then some (Except.error progressMsg)
          else serializeF rs fuel st

/-- The state entering `serialize`: `this.down().merge({ text: '', nodes })`. -/
def serializeEnter (nodeList : List Node) (s : State) : State :=
  { s.down with text := [], nodes := nodeList }

/-- `serialize(nodes)`: `down()`, reset `text`/`nodes`, run `_serialize` and
extract the accumulated text. -/
def serializeNodesF (rs : RuleSet) (fuel : Nat) (nodeList : List Node) (s : State) :
    Option (Except String (List Char)) :=
  (serializeF rs fuel (serializeEnter nodeList s)).map (Except.map State.text)

/-- The final state produced by `lex` when no decode rule ever matches: the
whole text has migrated, one character per iteration, into the raw buffer
behind `rest`, and the trimmed buffer is flushed as a single text node. -/
def lexNoRuleResult (s : State) (rest : List Char) : State :=
  let tr := jsTrim (rest ++ s.text)
  if tr = [] then { s with text := [] }
  else State.pushText { s with text := [] } tr

/-- A decode rule that returns its input state unchanged (progress
violation). -/
def identityDecodeRule : Rule := { deserialize := some fun s => some s }

/-- A decode rule committing the same progress violation, but only on states
whose text is `"a"`; extensionally different from `identityDecodeRule`. -/
def guardedDecodeRule : Rule :=
  { deserialize := some fun s => if s.text = ['a'] then some s else none }

/-- A one-character input state for exercising the progress error. -/
def c2State : State := { State.create with text := ['a'] }

/-- A rule offering neither operation. -/
def c3NoOpRule : Rule := {}

/-- A rule offering a decode operation that always passes. -/
def c3PassRule : Rule := { deserialize := some fun _ => none }

/-- The first decode rule that matches: it consumes one character. -/
def c3FirstRule : Rule := { deserialize := some fun s => some (s.skip 1) }

/-- A later decode rule that would produce a different result. -/
def c3LaterRule : Rule := { deserialize := some fun s => some (s.pushText ['y']) }

/-- A state whose stack holds a single text node. -/
def c4State : State := { State.create with nodes := [Node.text ['h'] []] }

/-- An encode rule that writes output without consuming any node. -/
def writeOnlyRule : Rule := { serialize := some fun s => some (State.write s ['x']) }

/-- A rule table containing only the non-consuming encode rule. -/
def c5Rules : RuleSet := [("block", [writeOnlyRule])]

/-- A state whose stack holds a single text node. -/
def c5State : State := { State.create with nodes := [Node.text ['h'] []] }

/-- The states reachable from `State.create` through the state operations
other than `up` (including the `deserialize`/`serialize` entry transforms,
which call `down`). -/
inductive ReachableNoUp : State → Prop where
  | create : ReachableNoUp State.create
  | use (kind : String) {s : State} : ReachableNoUp s → ReachableNoUp (s.use kind)
  | setProp (k v : String) {s : State} : ReachableNoUp s → ReachableNoUp (s.setProp k v)
  | write (t : List Char) {s : State} : ReachableNoUp s → ReachableNoUp (s.write t)
  | replaceText (t : List Char) {s : State} :
      ReachableNoUp s → ReachableNoUp (s.replaceText t)
  | shift {s : State} : ReachableNoUp s → ReachableNoUp s.shift
  | unshift (n : Node) {s : State} : ReachableNoUp s → ReachableNoUp (s.unshift n)
  | push (n : Node) {s : State} : ReachableNoUp s → ReachableNoUp (s.push n)
  | pushList (ns : List Node) {s : State} : ReachableNoUp s → ReachableNoUp (s.pushList ns)
  | pushMark (m : String) {s : State} : ReachableNoUp s → ReachableNoUp (s.pushMark m)
  | pushText (t : List Char) {s : State} : ReachableNoUp s → ReachableNoUp (s.pushText t)
  | down {s : State} : ReachableNoUp s → ReachableNoUp s.down
  | skip (n : Nat) {s : State} : ReachableNoUp s → ReachableNoUp (s.skip n)
  | deserializeEntry (t : List Char) {s : State} :
      ReachableNoUp s → ReachableNoUp (deserializeEnter t s)
  | serializeEntry (ns : List Node) {s : State} :
      ReachableNoUp s → ReachableNoUp (serializeEnter ns s)

/-- A decode rule that pushes a node while consuming no character: the state
always changes, so the no-progress check never fires, yet the text never
shrinks. -/
def pushOnlyRule : Rule :=
  { deserialize := some fun s => some (s.push (Node.text ['z'] [])) }

/-- A rule table containing only the non-consuming decode rule. -/
def c7Rules : RuleSet := [("block", [pushOnlyRule])]

/-- A one-character input state for the non-termination counterexample. -/
def c7State : State := { State.create with text := ['a'] }

/-
===========================================================================
General lemmas about the embedding
===========================================================================
-/

theorem State.pushText_text (s : State) (t : List Char) : (s.pushText t).text = s.text := rfl

theorem State.pushText_kind (s : State) (t : List Char) : (s.pushText t).kind = s.kind := rfl

theorem lexStart_text (opts : Opts) (s : State) (rest : List Char) :
    (lexStart opts s rest).text = s.text := by
  show (if (if opts.trim ≠ some false then jsTrim rest else rest) ≠ [] then
      s.pushText (if opts.trim ≠ some false then jsTrim rest else rest) else s).text = s.text
  split <;> split <;> rfl

theorem lexStart_kind (opts : Opts) (s : State) (rest : List Char) :
    (lexStart opts s rest).kind = s.kind := by
  show (if (if opts.trim ≠ some false then jsTrim rest else rest) ≠ [] then
      s.pushText (if opts.trim ≠ some false then jsTrim rest else rest) else s).kind = s.kind
  split <;> split <;> rfl

theorem applyRules_nil {rs : RuleSet} {k : String} {s : State}
    (h : (List.lookup s.kind rs).getD [] = []) : State.applyRules rs k s = none := by
  unfold State.applyRules State.rules
  rw [h]
  rfl

theorem lexStart_nil (opts : Opts) (ht : opts.trim ≠ some false) (s : State)
    (hs : s.text = []) (rest : List Char) :
    lexStart opts s rest = lexNoRuleResult s rest := by
  obtain ⟨st, sn, sm, sk, sd, sp⟩ := s
  replace hs : st = [] := hs
  subst hs
  unfold lexStart lexNoRuleResult
  rw [if_pos ht]
  by_cases h : jsTrim rest = []
  · simp_all
  · simp_all [State.pushText, State.push]

theorem lexF_no_rules (rs : RuleSet) (opts : Opts) (ht : opts.trim ≠ some false) :
    ∀ (fuel : Nat) (s : State) (rest : List Char),
      (List.lookup s.kind rs).getD [] = [] → s.text.length < fuel →
      lexF rs opts fuel s rest = some (Except.ok (lexNoRuleResult s rest)) := by
  intro fuel
  induction fuel with
  | zero => intro s rest _ hfuel; exact absurd hfuel (Nat.not_lt_zero _)
  | succ f ih =>
    intro s rest hr hfuel
    obtain ⟨st, sn, sm, sk, sd, sp⟩ := s
    cases st with
    | nil =>
      simp only [lexF, if_true]
      rw [lexStart_nil opts ht _ rfl rest]
    | cons c t =>
      simp only [lexF]
      rw [if_neg (by simp)]
      rw [applyRules_nil (by rw [lexStart_kind]; exact hr)]
      dsimp only [State.skip, List.take, List.drop]
      rw [ih { text := t, nodes := sn, marks := sm, kind := sk, depth := sd, props := sp }
        (rest ++ [c]) hr (Nat.lt_of_succ_lt_succ hfuel)]
      simp [lexNoRuleResult, List.append_assoc]

/-
===========================================================================
C1 — degrade-to-text with an empty decode rule list
===========================================================================
-/

/-- C1 (counterexample): the claim "with an empty decode rule list,
deserialize(text) yields exactly one literal text node whose content equals
text, character for character" fails at the concrete input `" "`: the raw
buffer is whitespace-trimmed before the final flush, so deserializing a
single space yields no node at all. -/
theorem c1_counterexample :
    ¬ ∃ nd : Node, deserializeF [] 2 [' '] State.create = some (Except.ok [nd]) := by
  rintro ⟨nd, h⟩
  have h0 : deserializeF [] 2 [' '] State.create = some (Except.ok ([] : List Node)) := rfl
  rw [h0] at h
  simp at h

/-- C1 (amended): with an empty decode rule list, `deserialize(text)` yields
no node when the whitespace-trimmed text is empty, and otherwise exactly one
node — a text block (the state kind is `'block'`) wrapping a single literal
text leaf whose content is the whitespace-trimmed text; the content matches
`text` character for character exactly when `text` carries no leading or
trailing whitespace. -/
theorem c1_degrade_to_text (rs : RuleSet) (input : List Char)
    (hr : (List.lookup "block" rs).getD [] = []) :
    deserializeF rs (input.length + 1) input State.create =
      some (Except.ok (if jsTrim input = [] then ([] : List Node)
        else [Node.block BLOCKS_TEXT [Node.text (jsTrim input) []]])) := by
  unfold deserializeF
  rw [lexF_no_rules rs {} (by simp) (input.length + 1)
    (deserializeEnter input State.create) [] hr (Nat.lt_succ_self _)]
  by_cases h : jsTrim input = [] <;>
    simp [lexNoRuleResult, deserializeEnter, State.down, State.create,
      State.pushText, State.push, h, Except.map]

/-- C1 (witness): deserializing `" a"` with no decode rules yields one text
block containing the trimmed literal `"a"`. -/
theorem c1_degrade_to_text_witness :
    deserializeF [] 3 [' ', 'a'] State.create =
      some (Except.ok [Node.block BLOCKS_TEXT [Node.text ['a'] []]]) := by
  have h := c1_degrade_to_text [] [' ', 'a'] rfl
  exact Eq.trans (by rfl) (h.trans (by rfl))

/-
===========================================================================
C2 — progress violation in the decode loop
===========================================================================
-/

/-- C2 (counterexample): the raised error does not identify the offending
rule.  Two extensionally different decode rules that both return their input
state yield the very same fixed-message error, so the error cannot name the
rule at fault. -/
theorem c2_counterexample :
    lexF [("block", [identityDecodeRule])] {} 1 c2State [] =
        some (Except.error progressMsg) ∧
    lexF [("block", [guardedDecodeRule])] {} 1 c2State [] =
        some (Except.error progressMsg) ∧
    identityDecodeRule ≠ guardedDecodeRule := by
  refine ⟨rfl, rfl, fun h => ?_⟩
  have h1 := congrArg Rule.deserialize h
  simp only [identityDecodeRule, guardedDecodeRule, Option.some.injEq] at h1
  have h2 := congrFun h1 { State.create with text := ['b'] }
  dsimp only at h2
  rw [if_neg (by decide)] at h2
  exact Option.noConfusion h2

/-- C2 (amended): when a decode rule returns a state equal to the (post
raw-buffer-flush) state it was given, the decode loop raises an error with
the fixed message "A rule returns an identical state, returns undefined
instead when passing." — distinct from the serializer's totality error but
not identifying the offending rule. -/
theorem c2_progress_error (rs : RuleSet) (opts : Opts) (s : State) (rest : List Char)
    (fuel : Nat) (hne : s.text ≠ [])
    (happ : State.applyRules rs "deserialize" (lexStart opts s rest) =
      some (lexStart opts s rest)) :
    lexF rs opts (fuel + 1) s rest = some (Except.error progressMsg) := by
  simp only [lexF]
  rw [if_neg hne, happ]
  dsimp only
  rw [if_pos rfl]

/-- C2 (witness): the identity-returning rule triggers the progress error on
the concrete one-character state. -/
theorem c2_progress_error_witness :
    lexF [("block", [identityDecodeRule])] {} 5 c2State [] =
      some (Except.error progressMsg) :=
  c2_progress_error _ _ _ _ 4 (by decide) rfl

/-
===========================================================================
C3 — first-match-wins rule dispatch
===========================================================================
-/

theorem applyList_first (k : String) (s : State) :
    ∀ (l1 : List Rule) (r : Rule) (l2 : List Rule) (f : State → Option State) (s' : State),
      Rule.getOp r k = some f → f s = some s' →
      (∀ r' ∈ l1, ∀ g, Rule.getOp r' k = some g → g s = none) →
      ((l1 ++ r :: l2).filter (fun rl => (Rule.getOp rl k).isSome)).findSome?
        (tryRule k s) = some s'
  | [], r, l2, f, s', hop, happ, _ => by
      simp only [List.nil_append, List.filter_cons, hop, Option.isSome_some, if_true]
      dsimp only [List.findSome?, tryRule]
      rw [hop]
      dsimp only [RuleFunction.exec]
      rw [happ]
  | a :: t, r, l2, f, s', hop, happ, hprev => by
      cases ha : Rule.getOp a k with
      | none =>
          simp only [List.cons_append, List.filter_cons, ha, Option.isSome_none,
            Bool.false_eq_true, if_false]
          exact applyList_first k s t r l2 f s' hop happ
            (fun r' hm => hprev r' (List.mem_cons_of_mem _ hm))
      | some g =>
          have hg := hprev a (List.mem_cons_self _ _) g ha
          simp only [List.cons_append, List.filter_cons, ha, Option.isSome_some, if_true]
          dsimp only [List.findSome?, tryRule]
          rw [ha]
          dsimp only [RuleFunction.exec]
          rw [hg]
          exact applyList_first k s t r l2 f s' hop happ
            (fun r' hm => hprev r' (List.mem_cons_of_mem _ hm))

/-- C3 (confirmed): `applyRules` tries the rules offering the requested
operation strictly in declared list order and returns the result of the
first rule whose application is non-none; rules later in the list cannot
override that result. -/
theorem c3_first_match_wins (rs : RuleSet) (k : String) (s : State)
    (l1 l2 : List Rule) (r : Rule) (f : State → Option State) (s' : State)
    (hrules : State.rules rs s = l1 ++ r :: l2)
    (hop : Rule.getOp r k = some f)
    (happ : f s = some s')
    (hprev : ∀ r' ∈ l1, ∀ g, Rule.getOp r' k = some g → g s = none) :
    State.applyRules rs k s = some s' := by
  unfold State.applyRules
  rw [hrules]
  exact applyList_first k s l1 r l2 f s' hop happ hprev

/-- C3 (witness): with a no-operation rule and an always-passing rule ahead
of it, the first matching rule's result is returned even though a later rule
would produce a different state. -/
theorem c3_first_match_wins_witness :
    State.applyRules [("block", [c3NoOpRule, c3PassRule, c3FirstRule, c3LaterRule])]
      "deserialize" c2State = some (c2State.skip 1) := by
  have h := c3_first_match_wins
    [("block", [c3NoOpRule, c3PassRule, c3FirstRule, c3LaterRule])]
    "deserialize" c2State [c3NoOpRule, c3PassRule] [c3LaterRule] c3FirstRule
    (fun s => some (s.skip 1)) (c2State.skip 1) rfl rfl rfl ?_
  · exact h
  · intro r' hm g hg
    simp only [List.mem_cons, List.not_mem_nil, or_false] at hm
    rcases hm with rfl | rfl
    · exact absurd hg (by simp [c3NoOpRule, Rule.getOp])
    · have hg' : some (fun _ : State => (none : Option State)) = some g := hg
      obtain rfl := Option.some_inj.mp hg'
      rfl

/-
===========================================================================
C4 — totality violation in the encode loop
===========================================================================
-/

/-- C4 (confirmed): when the node stack is non-empty and no encode rule
matches, the serialize loop immediately returns the error whose message
names the front node's kind and type ("No rule match node kind#type"),
rather than defaulting or skipping the node. -/
theorem c4_totality_error (rs : RuleSet) (fuel : Nat) (s : State) (n : Node) (ns : List Node)
    (hn : s.nodes = n :: ns)
    (happ : State.applyRules rs "serialize" s = none) :
    serializeF rs (fuel + 1) s =
      some (Except.error ("No rule match node " ++ n.kind ++ "#" ++ n.typeOrEmpty)) := by
  simp only [serializeF]
  rw [hn]
  dsimp only
  rw [happ]

/-- C4 (witness): serializing a stack holding one text leaf with an empty
rule table raises exactly "No rule match node text#". -/
theorem c4_totality_error_witness :
    serializeF [] 1 c4State = some (Except.error "No rule match node text#") := by
  have h := c4_totality_error [] 0 c4State (Node.text ['h'] []) [] rfl rfl
  exact h.trans (by rfl)

/-
===========================================================================
C5 — encode rule applications need not consume a node
===========================================================================
-/

/-- C5 (counterexample): a successful encode rule application inside the
serialize loop whose resulting node stack is NOT shorter: the write-only
rule is applied successfully (the loop recurses without raising any error,
eventually exhausting its fuel) yet the stack length is unchanged. -/
theorem c5_counterexample :
    State.applyRules c5Rules "serialize" c5State = some (c5State.write ['x']) ∧
    (c5State.write ['x']).nodes.length = c5State.nodes.length ∧
    serializeF c5Rules 3 c5State = none :=
  ⟨rfl, rfl, rfl⟩

/-- C5 (amended): the serialize loop does not enforce node consumption: any
successful encode rule application whose result merely differs from the
input state is accepted and the loop recurses on it, even when the node
stack did not shrink. -/
theorem c5_no_consumption_check (rs : RuleSet) (fuel : Nat) (s s' : State)
    (n : Node) (ns : List Node) (hn : s.nodes = n :: ns)
    (happ : State.applyRules rs "serialize" s = some s')
    (hne : s' ≠ s) :
    serializeF rs (fuel + 1) s = serializeF rs fuel s' := by
  simp only [serializeF]
  rw [hn]
  dsimp only
  rw [happ]
  dsimp only
  rw [if_neg hne]

/-- C5 (witness): the loop accepts the write-only rule's result — which
consumed no node — and simply continues. -/
theorem c5_no_consumption_check_witness :
    serializeF c5Rules 2 c5State = serializeF c5Rules 1 (c5State.write ['x']) :=
  c5_no_consumption_check c5Rules 1 c5State (c5State.write ['x'])
    (Node.text ['h'] []) [] rfl rfl (by decide)

/-
===========================================================================
C6 — nesting depth
===========================================================================
-/

/-- C6 (counterexample): `depth` is not non-negative in every state reachable
by the state operations: a single `up()` from the freshly created state
drives it to `-1`. -/
theorem c6_counterexample : (State.up State.create).depth < 0 := by decide

/-- C6 (amended): `depth` stays non-negative in every state reachable from
`State.create` by the state operations other than `up` (including the
`deserialize`/`serialize` entry transforms); `down` increments it by exactly
one and `up` decrements it by exactly one, so it mirrors the recursive call
depth only under balanced use. -/
theorem c6_depth_nonneg :
    (∀ s : State, ReachableNoUp s → 0 ≤ s.depth) ∧
    (∀ s : State, (State.down s).depth = s.depth + 1 ∧ (State.up s).depth = s.depth - 1) := by
  constructor
  · intro s h
    induction h <;>
      simp_all [State.use, State.setProp, State.write, State.replaceText, State.shift,
        State.unshift, State.push, State.pushList, State.pushMark, State.pushText,
        State.down, State.skip, deserializeEnter, serializeEnter, State.create] <;>
      omega
  · intro s
    exact ⟨rfl, rfl⟩

/-- C6 (witness): the state entered by one `down` from `create` has
non-negative depth. -/
theorem c6_depth_nonneg_witness : 0 ≤ (State.down State.create).depth :=
  c6_depth_nonneg.1 _ (ReachableNoUp.down ReachableNoUp.create)

/-
===========================================================================
C7 — linear termination of the decode loop
===========================================================================
-/

theorem State.push_kind (s : State) (n : Node) : (s.push n).kind = s.kind := rfl

theorem State.push_text_eq (s : State) (n : Node) : (s.push n).text = s.text := rfl

theorem State.push_ne (s : State) (n : Node) : s.push n ≠ s := by
  intro h
  have h2 := congrArg (fun st => st.nodes.length) h
  simp [State.push] at h2

theorem c7_no_termination_aux :
    ∀ (fuel : Nat) (s : State) (rest : List Char), s.kind = "block" → s.text ≠ [] →
      lexF c7Rules {} fuel s rest = none := by
  intro fuel
  induction fuel with
  | zero => intro s rest _ _; rfl
  | succ f ih =>
    intro s rest hk hne
    simp only [lexF]
    rw [if_neg hne]
    have happ : State.applyRules c7Rules "deserialize" (lexStart {} s rest) =
        some ((lexStart {} s rest).push (Node.text ['z'] [])) := by
      unfold State.applyRules State.rules
      rw [lexStart_kind, hk]
      rfl
    rw [happ]
    dsimp only
    rw [if_neg (State.push_ne _ _)]
    exact ih _ rest (by rw [State.push_kind, lexStart_kind]; exact hk)
      (by rw [State.push_text_eq, lexStart_text]; exact hne)

/-- C7 (counterexample): decode does not terminate for every rule set — a
decode rule that pushes a node but consumes no character changes the state
(so the no-progress check never fires) while the text never shrinks, and the
loop never finishes for any amount of fuel. -/
theorem c7_counterexample : ¬ ∃ fuel, (lexF c7Rules {} fuel c7State []).isSome := by
  rintro ⟨fuel, h⟩
  rw [c7_no_termination_aux fuel c7State [] rfl (by decide)] at h
  simp at h

/-- C7 (amended): provided every successful decode rule application strictly
shrinks the remaining text, the decode loop finishes within `n + 1`
iterations for a text of length `n`; and whenever no rule matches, the
failed attempt advances past exactly one character — it moves the first
character of the remaining text onto the raw buffer. -/
theorem c7_linear_termination (rs : RuleSet) (opts : Opts)
    (hshrink : ∀ u u' : State, State.applyRules rs "deserialize" u = some u' →
      u'.text.length < u.text.length) :
    (∀ (fuel : Nat) (s : State) (rest : List Char), s.text.length < fuel →
      (lexF rs opts fuel s rest).isSome) ∧
    (∀ (fuel : Nat) (s : State) (rest : List Char) (c : Char) (t : List Char),
      s.text = c :: t →
      State.applyRules rs "deserialize" (lexStart opts s rest) = none →
      lexF rs opts (fuel + 1) s rest = lexF rs opts fuel (s.skip 1) (rest ++ [c]) ∧
      (s.skip 1).text = t) := by
  constructor
  · intro fuel
    induction fuel with
    | zero => intro s rest h; exact absurd h (Nat.not_lt_zero _)
    | succ f ih =>
      intro s rest hfuel
      simp only [lexF]
      by_cases hst : s.text = []
      · rw [if_pos hst]; rfl
      · rw [if_neg hst]
        cases happ : State.applyRules rs "deserialize" (lexStart opts s rest) with
        | some ns =>
          dsimp only
          by_cases heq : ns = lexStart opts s rest
          · rw [if_pos heq]; rfl
          · rw [if_neg heq]
            apply ih
            have h1 := hshrink _ _ happ
            rw [lexStart_text] at h1
            omega
        | none =>
          dsimp only
          apply ih
          have h1 : 0 < s.text.length := List.length_pos.mpr hst
          simp only [State.skip, List.length_drop]
          omega
  · intro fuel s rest c t hst happ
    refine ⟨?_, by simp [State.skip, hst]⟩
    simp only [lexF]
    rw [if_neg (by rw [hst]; simp), happ]
    dsimp only
    rw [hst]
    rfl

/-- C7 (witness): with the empty rule table (for which the shrink hypothesis
holds vacuously) on the one-character input, decode finishes within two
iterations, and the single failed attempt advances exactly one character. -/
theorem c7_linear_termination_witness :
    (lexF ([] : RuleSet) {} 2 c7State []).isSome ∧
    lexF ([] : RuleSet) {} 2 c7State [] = lexF [] {} 1 (c7State.skip 1) ['a'] ∧
    (c7State.skip 1).text = [] := by
  have hshrink : ∀ u u' : State, State.applyRules ([] : RuleSet) "deserialize" u = some u' →
      u'.text.length < u.text.length := by
    intro u u' h
    rw [@applyRules_nil [] "deserialize" u rfl] at h
    exact Option.noConfusion h
  have h := c7_linear_termination [] {} hshrink
  have h2 := h.2 1 c7State [] 'a' [] rfl
    (@applyRules_nil [] "deserialize" (lexStart {} c7State []) rfl)
  exact ⟨h.1 2 c7State [] (by decide), by simpa using h2.1, h2.2⟩

/-
===========================================================================
C8 — marks are never applied retroactively
===========================================================================
-/

/-- C8 (confirmed): `pushText` is the only operation that reads the active
mark set, and it bakes the marks active at creation time into the new leaf;
every state operation leaves the nodes already on the stack untouched —
`pushMark` changes no node at all, the push operations append or prepend
while preserving the existing nodes verbatim, `shift` merely drops the front
node, and all remaining operations leave the stack unchanged. -/
theorem c8_marks_not_retroactive (s : State) (m : String) (t : List Char) (n : Node)
    (ns : List Node) (k v : String) (cnt : Nat) :
    (s.pushMark m).nodes = s.nodes ∧
    (s.pushText t).nodes = s.nodes ++
      [if s.kind = "block" then Node.block BLOCKS_TEXT [Node.text t s.marks]
       else Node.text t s.marks] ∧
    (s.push n).nodes = s.nodes ++ [n] ∧
    (s.pushList ns).nodes = s.nodes ++ ns ∧
    (s.unshift n).nodes = n :: s.nodes ∧
    s.shift.nodes = s.nodes.tail ∧
    (s.use k).nodes = s.nodes ∧
    (s.setProp k v).nodes = s.nodes ∧
    (s.write t).nodes = s.nodes ∧
    (s.replaceText t).nodes = s.nodes ∧
    (s.skip cnt).nodes = s.nodes ∧
    s.up.nodes = s.nodes ∧
    s.down.nodes = s.nodes :=
  ⟨rfl, rfl, rfl, rfl, rfl, rfl, rfl, rfl, rfl, rfl, rfl, rfl, rfl⟩

/-
===========================================================================
C9 — whitespace trimming of the pending raw buffer
===========================================================================
-/

/-- C9 (confirmed): unless the `trim` option is explicitly `false`, the
pending raw buffer is whitespace-trimmed before being flushed as a literal
text node, and a buffer that trims to nothing is dropped without producing
any node (shown at the final flush, where the loop returns). -/
theorem c9_trim_flush (rs : RuleSet) (opts : Opts) (fuel : Nat) (s : State)
    (rest : List Char) (hs : s.text = []) (ht : opts.trim ≠ some false) :
    lexF rs opts (fuel + 1) s rest =
      some (Except.ok (if jsTrim rest = [] then s else s.pushText (jsTrim rest))) := by
  have hls : lexStart opts s rest =
      if jsTrim rest = [] then s else s.pushText (jsTrim rest) := by
    unfold lexStart
    rw [if_pos ht]
    by_cases h : jsTrim rest = []
    · rw [if_neg (not_not_intro h), if_pos h]
    · rw [if_pos h, if_neg h]
  simp only [lexF]
  rw [if_pos hs, hls]

/-- C9 (witness): a whitespace-only buffer produces no node, while a buffer
with surrounding whitespace is flushed trimmed. -/
theorem c9_trim_flush_witness :
    lexF [] {} 1 State.create [' ', '\u3000', '\t'] = some (Except.ok State.create) ∧
    lexF [] {} 1 State.create [' ', 'b'] =
      some (Except.ok (State.create.pushText ['b'])) := by
  have h1 := c9_trim_flush [] {} 0 State.create [' ', '\u3000', '\t'] rfl (by simp)
  have h2 := c9_trim_flush [] {} 0 State.create [' ', 'b'] rfl (by simp)
  exact ⟨h1.trans (by rfl), h2.trans (by rfl)⟩

/-
===========================================================================
C10 — pushText block wrapping
===========================================================================
-/

/-- C10 (confirmed): when the state kind is `'block'`, `pushText` pushes a
container block node of the text block type wrapping the created leaf; for
any other kind it pushes the bare leaf carrying the current marks. -/
theorem c10_pushText_kind_dispatch (s : State) (t : List Char) :
    (s.kind = "block" →
      (s.pushText t).nodes = s.nodes ++ [Node.block BLOCKS_TEXT [Node.text t s.marks]]) ∧
    (s.kind ≠ "block" →
      (s.pushText t).nodes = s.nodes ++ [Node.text t s.marks]) := by
  constructor
  · intro h
    simp [State.pushText, State.push, h]
  · intro h
    simp [State.pushText, State.push, h]

/-- C10 (witness): a block-kind state wraps the leaf in a text block, an
inline-kind state pushes the bare leaf. -/
theorem c10_pushText_kind_dispatch_witness :
    (State.create.pushText ['a']).nodes = [Node.block BLOCKS_TEXT [Node.text ['a'] []]] ∧
    ((State.create.use "inline").pushText ['a']).nodes = [Node.text ['a'] []] := by
  refine ⟨?_, ?_⟩
  · have h := (c10_pushText_kind_dispatch State.create ['a']).1 rfl
    simpa using h
  · have h := (c10_pushText_kind_dispatch (State.create.use "inline") ['a']).2 (by decide)
    simpa using h
